import Mathlib

set_option maxRecDepth 10000

/-!
Verification of the cycle scheduling engine (multi-level interval timer).

Shallow embedding of the Go sources:
* `planMesoSchedule` (main.go, lines 196-285): the randomized interval
  planner.  Go `int` arithmetic is modelled as unbounded `Int` (all the
  configurations considered keep every intermediate value far below 2^63,
  so 64-bit wrap-around never occurs); durations are modelled in whole
  seconds, since the Go code works on second counts and only converts to
  `time.Duration` (a fixed scaling by 10^9) when storing results.
  `rand.Intn(k)` is modelled by an explicit stream of naturals (`Rng`):
  the next stream value reduced mod `k`, which ranges over exactly the
  values Go can produce; `rand.Intn` panics for `k ≤ 0`, and Go panics
  (slice index / make out of range) are modelled by `Option.none`.
* the state helpers `setCurrentTask` / `setMesoTask` / `clearMesoTask`
  (main.go, lines 326-345) and the snapshot reader `statusHandler`
  (web_server.go, lines 35-59): timestamps and durations in nanoseconds
  as `Int` (the float64 `Seconds()` conversion is a positive scaling,
  which preserves order and the clamping comparisons).
* the cycle driver `runMacroCycle` / `runMesoCycle` (main.go, lines
  125-193): embedded as the trace of externally visible events (state
  publishes, sleeps, and cue sounds) it performs, parametrized by the
  plans the planner returned for each meso group.
* the outer loop `startTimerLoop` (main.go, lines 103-113): its
  function-scoped defer/recover means a panic in `runMacroCycle` unwinds
  out of the `for` loop, is logged by the recover, and `startTimerLoop`
  returns; this control flow is modelled by `startTimerLoopModel`.
-/

/-- The configuration record (`Config` in main.go); the fields used by the
engine.  `Port` is omitted (web glue only).  `MesoCount` is used only as a
loop bound `i < MesoCount`, so it is modelled as `Nat` (a non-positive Go
value yields zero iterations, exactly like `0`). -/
structure Config where
  MicroBaseS : Int
  MicroOffsetS : Int
  MicroRestS : Int
  MesoDurationM : Int
  MesoRestM : Int
  MesoCount : Nat
  MacroRestM : Int
deriving DecidableEq

/-- Explicit random source: a stream of naturals together with a cursor.
`next k` models Go `rand.Intn(k)`: an arbitrary value in `[0, k)` (the
stream value reduced mod `k`), advancing the cursor; for `k ≤ 0` Go's
`rand.Intn` panics, modelled as `none`. -/
structure Rng where
  stream : Nat → Nat
  idx : Nat

def Rng.next (r : Rng) (k : Int) : Option (Int × Rng) :=
  if 0 < k then
    some (((r.stream r.idx % k.toNat : Nat) : Int), ⟨r.stream, r.idx + 1⟩)
  else none

/-- The candidate-count search of `planMesoSchedule` (main.go 213-228):
`for n := estN-5; n <= estN+5; n++`, skipping `n ≤ 0`, keeping every `n`
whose achievable range `[n*minDur+(n-1)*rest, n*maxDur+(n-1)*rest]`
contains `actualTarget`. -/
def candidateCounts (estN minDur maxDur rest actualTarget : Int) : List Int :=
  (List.range 11).filterMap (fun k =>
    let n := estN - 5 + (k : Int)
    if n ≤ 0 then none
    else if n * minDur + (n - 1) * rest ≤ actualTarget ∧
            actualTarget ≤ n * maxDur + (n - 1) * rest then some n
    else none)

/-- The `n-1` random draws of one attempt (main.go 249-254): each duration
is `minDur + rand.Intn(maxDur-minDur+1)`. -/
def drawDurations (minDur maxDur : Int) : Nat → Rng → Option (List Int × Rng)
  | 0, r => some ([], r)
  | m + 1, r =>
    match r.next (maxDur - minDur + 1) with
    | none => none
    | some (v, r1) =>
      match drawDurations minDur maxDur m r1 with
      | none => none
      | some (ds, r2) => some ((minDur + v) :: ds, r2)

/-- The retry loop of `planMesoSchedule` (main.go 244-284): up to `fuel`
(100 in the source) attempts; each draws `n-1` durations, computes the
exact last duration needed to hit `actualTarget`, returns immediately when
that last duration is in `[minDur, maxDur]`, and otherwise keeps the
attempt with the smallest deviation (`bestDiff` starts at the sentinel
1000000, `best` starts as the zero-initialized slice of length `n`).  When
the fuel runs out the recorded best is returned. -/
def attemptLoop (minDur maxDur rest actualTarget : Int) (n : Nat) :
    Nat → Rng → Int → List Int → Option (List Int)
  | 0, _, _, best => some best
  | fuel + 1, r, bestDiff, best =>
    match drawDurations minDur maxDur (n - 1) r with
    | none => none
    | some (ds, r1) =>
      let requiredLast := actualTarget - ((n : Int) - 1) * rest - ds.sum
      let durations := ds ++ [requiredLast]
      if minDur ≤ requiredLast ∧ requiredLast ≤ maxDur then some durations
      else
        let diff := if requiredLast < minDur then minDur - requiredLast
                    else requiredLast - maxDur
        if diff < bestDiff then
          attemptLoop minDur maxDur rest actualTarget n fuel r1 diff durations
        else
          attemptLoop minDur maxDur rest actualTarget n fuel r1 bestDiff best

/-- The planner after the jitter draw (main.go 209-284).  `estN` is Go's
truncated integer division (`Int.tdiv`); dividing by `base+rest = 0` would
panic, hence `none`.  The chosen count `n` comes from the candidate list
(or the un-clamped estimate when no candidate was found); `make` /
indexing with `n ≤ 0` panics (`none`): this is exactly the situation of
`durations[n-1]` with `n = 0` in the source. -/
def planWithTarget (cfg : Config) (actualTarget : Int) (r : Rng) : Option (List Int) :=
  if cfg.MicroBaseS + cfg.MicroRestS = 0 then none
  else
    let minDur := cfg.MicroBaseS - cfg.MicroOffsetS
    let maxDur := cfg.MicroBaseS + cfg.MicroOffsetS
    let estN := Int.tdiv actualTarget (cfg.MicroBaseS + cfg.MicroRestS)
    let validN0 := candidateCounts estN minDur maxDur cfg.MicroRestS actualTarget
    let validN := if validN0.isEmpty then [estN] else validN0
    match r.next (validN.length : Int) with
    | none => none
    | some (i, r1) =>
      let n := validN.getD i.toNat 0
      if n ≤ 0 then none
      else attemptLoop minDur maxDur cfg.MicroRestS actualTarget n.toNat 100 r1
             1000000 (List.replicate n.toNat 0)

/-- `planMesoSchedule` (main.go 196-285), in seconds: draws the jitter
`rand.Intn(61)` and plans towards `actualTarget = targetSec + jitter`. -/
def planMesoSchedule (cfg : Config) (targetSec : Int) (r : Rng) : Option (List Int) :=
  match r.next 61 with
  | none => none
  | some (j, r1) => planWithTarget cfg (targetSec + j) r1

/-- The shared timer state (`GlobalState` in main.go, lines 30-38), with
time values in nanoseconds as `Int`.  The mutex is not modelled: the
driver is the single writer and each reader copies a consistent snapshot
under the lock, so reads happen between complete writes. -/
structure GlobalState where
  CurrentStartTime : Int
  CurrentDuration : Int
  MesoStartTime : Int
  MesoDuration : Int
  InMeso : Bool
deriving DecidableEq

/-- `setCurrentTask` (main.go 326-331): publishes `(now, duration)` as the
active interval. -/
def setCurrentTask (now duration : Int) (s : GlobalState) : GlobalState :=
  { s with CurrentStartTime := now, CurrentDuration := duration }

/-- `setMesoTask` (main.go 333-339). -/
def setMesoTask (now duration : Int) (s : GlobalState) : GlobalState :=
  { s with MesoStartTime := now, MesoDuration := duration, InMeso := true }

/-- `clearMesoTask` (main.go 341-345): clears only the flag. -/
def clearMesoTask (s : GlobalState) : GlobalState :=
  { s with InMeso := false }

/-- The JSON document produced by `statusHandler` (web_server.go 49-55). -/
structure Status where
  current_total : Int
  current_elapsed : Int
  in_meso : Bool
  meso_total : Int
  meso_elapsed : Int
deriving DecidableEq

/-- The reader-side elapsed computation of `statusHandler` (web_server.go
39-47): raw elapsed `now - start`, clamped from above by `total` only. -/
def clampedElapsed (now start total : Int) : Int :=
  let e := now - start
  if e > total then total else e

/-- `statusHandler` (web_server.go 35-59) as a pure snapshot function of
the observation instant and the shared state. -/
def statusHandler (now : Int) (s : GlobalState) : Status :=
  { current_total := s.CurrentDuration
    current_elapsed := clampedElapsed now s.CurrentStartTime s.CurrentDuration
    in_meso := s.InMeso
    meso_total := s.MesoDuration
    meso_elapsed := clampedElapsed now s.MesoStartTime s.MesoDuration }

/-- Externally visible actions of the cycle driver: cue sounds (by the
file path passed to `playSound`), blocking sleeps, and shared-state
writes.  `wait(d)` in the source is `setCurrentTask(d)` followed by
`time.Sleep(d)` (main.go 347-350).  Durations in seconds. -/
inductive Event where
  | sound (path : String)
  | sleep (sec : Int)
  | setCurrent (sec : Int)
  | setMeso (sec : Int)
  | clearMeso
deriving DecidableEq

/-- Trace of `wait(d)` (main.go 347-350). -/
def waitTrace (d : Int) : List Event := [Event.setCurrent d, Event.sleep d]

/-- The "total duration including rests" shown in the UI (main.go
152-158): plan durations plus one `MicroRestS` after every non-final
micro-interval. -/
def totalMesoDuration (restS : Int) (plan : List Int) : Int :=
  plan.sum + restS * ((plan.length - 1 : Nat) : Int)

/-- The micro-interval loop of `runMesoCycle` (main.go 163-177): wait for
each planned duration, cue `warning.mp3` (MicroComplete); between
consecutive micro-intervals also wait the micro rest and cue
`succeed.mp3` (MicroRestComplete). -/
def microTrace (restS : Int) : List Int → List Event
  | [] => []
  | [d] => waitTrace d ++ [Event.sound "Sounds/warning.mp3"]
  | d :: ds =>
    waitTrace d ++ [Event.sound "Sounds/warning.mp3"] ++
    waitTrace restS ++ [Event.sound "Sounds/succeed.mp3"] ++ microTrace restS ds

/-- The trace of `runMesoCycle` (main.go 143-193) for one meso group with
the given plan: publish the group total, run the micro loop, clear the
meso flag, and — only when this is not the last group — cue `info.mp3`
(MesoComplete), wait the meso rest and cue `succeed.mp3`
(MesoRestComplete). -/
def runMesoCycleTrace (cfg : Config) (plan : List Int) (isLastMeso : Bool) : List Event :=
  [Event.setMeso (totalMesoDuration cfg.MicroRestS plan)] ++
  microTrace cfg.MicroRestS plan ++ [Event.clearMeso] ++
  (if isLastMeso then []
   else [Event.sound "Sounds/info.mp3"] ++ waitTrace (60 * cfg.MesoRestM) ++
        [Event.sound "Sounds/succeed.mp3"])

/-- The per-group traces of one macro cycle (main.go 127-130): group `i`
runs with `isLast = (i == MesoCount-1)`.  The plans are a parameter (the
planner is randomized). -/
def mesoGroupTraces (cfg : Config) (plans : Nat → List Int) : List (List Event) :=
  (List.range cfg.MesoCount).map
    (fun i => runMesoCycleTrace cfg (plans i) (i == cfg.MesoCount - 1))

/-- The trace of `runMacroCycle` (main.go 125-141): all meso groups, then
cue `info.mp3` (MacroComplete), defensive `clearMesoTask`, the macro rest
wait, and cue `succeed.mp3` (MacroRestComplete). -/
def runMacroCycleTrace (cfg : Config) (plans : Nat → List Int) : List Event :=
  (mesoGroupTraces cfg plans).flatten ++
  ([Event.sound "Sounds/info.mp3", Event.clearMeso] ++
   waitTrace (60 * cfg.MacroRestM) ++ [Event.sound "Sounds/succeed.mp3"])

/-- Control flow of `startTimerLoop` (main.go 103-113).  The
defer/recover is attached to the function, not to the loop body: the
iterations run while none panics; when iteration `i` panics (`p i =
true`), the panic unwinds out of the `for` loop, the deferred recover
logs it, and `startTimerLoop` returns.  Result: the index after the last
iteration started within `fuel` potential iterations, and whether the
loop is still running afterwards (`true` = alive, `false` = the function
returned). -/
def startTimerLoopModel (p : Nat → Bool) : Nat → Nat → Nat × Bool
  | 0, i => (i, true)
  | fuel + 1, i =>
    if p i then (i + 1, false) else startTimerLoopModel p fuel (i + 1)

/-! ### Properties of the random source and the draws -/

theorem Rng.next_pos (r : Rng) (k : Int) (hk : 0 < k) :
    r.next k = some (((r.stream r.idx % k.toNat : Nat) : Int), ⟨r.stream, r.idx + 1⟩) := by
  unfold Rng.next; rw [if_pos hk]

theorem Rng.next_bounds {r : Rng} {k v : Int} {r2 : Rng} (h : r.next k = some (v, r2)) :
    0 < k ∧ 0 ≤ v ∧ v < k := by
  unfold Rng.next at h
  split at h
  case isTrue hk =>
    rw [Option.some.injEq, Prod.mk.injEq] at h
    obtain ⟨hv, -⟩ := h
    have hlt : r.stream r.idx % k.toNat < k.toNat := Nat.mod_lt _ (by omega)
    omega
  case isFalse => exact absurd h (by simp)

theorem drawDurations_some (md xd : Int) :
    ∀ (m : Nat) (r : Rng) (ds : List Int) (r2 : Rng),
      drawDurations md xd m r = some (ds, r2) →
      ds.length = m ∧ (∀ x ∈ ds, md ≤ x ∧ x ≤ xd) ∧
      (m : Int) * md ≤ ds.sum ∧ ds.sum ≤ (m : Int) * xd := by
  intro m
  induction m with
  | zero =>
    intro r ds r2 h
    rw [drawDurations, Option.some.injEq, Prod.mk.injEq] at h
    obtain ⟨h1, -⟩ := h
    subst h1
    simp
  | succ k ih =>
    intro r ds r2 h
    rw [drawDurations] at h
    cases hn : r.next (xd - md + 1) with
    | none => rw [hn] at h; exact absurd h (by simp)
    | some p =>
      obtain ⟨v, r1⟩ := p
      rw [hn] at h
      dsimp only at h
      obtain ⟨-, hv0, hvk⟩ := Rng.next_bounds hn
      cases hd : drawDurations md xd k r1 with
      | none => rw [hd] at h; exact absurd h (by simp)
      | some q =>
        obtain ⟨ds0, r2x⟩ := q
        rw [hd] at h
        dsimp only at h
        rw [Option.some.injEq, Prod.mk.injEq] at h
        obtain ⟨h1, -⟩ := h
        subst h1
        obtain ⟨hlen, helem, hlo, hhi⟩ := ih r1 ds0 r2x hd
        refine ⟨by simp [hlen], ?_, ?_, ?_⟩
        · intro x hx
          rcases List.mem_cons.mp hx with h | h
          · subst h; omega
          · exact helem x h
        · simp only [List.sum_cons]
          push_cast
          nlinarith
        · simp only [List.sum_cons]
          push_cast
          nlinarith

theorem drawDurations_total (md xd : Int) (hmm : md ≤ xd) :
    ∀ (m : Nat) (r : Rng), ∃ ds r2, drawDurations md xd m r = some (ds, r2) := by
  intro m
  induction m with
  | zero => exact fun r => ⟨[], r, rfl⟩
  | succ k ih =>
    intro r
    obtain ⟨ds, r2, hds⟩ := ih ⟨r.stream, r.idx + 1⟩
    refine ⟨(md + ((r.stream r.idx % (xd - md + 1).toNat : Nat) : Int)) :: ds, r2, ?_⟩
    rw [drawDurations, Rng.next_pos r _ (by omega)]
    dsimp only
    rw [hds]

/-! ### The shape invariant of the retry loop -/

/-- A list is a recorded (or immediately returned) attempt: it has length
`n`, all but its last element were drawn inside `[minDur, maxDur]`, and
its aggregate plus the `n-1` interior rests equals the jittered target
exactly (the last slot is the residual by construction). -/
def GoodShape (minDur maxDur rest actualTarget : Int) (n : Nat) (l : List Int) : Prop :=
  l.length = n ∧ (∀ x ∈ l.dropLast, minDur ≤ x ∧ x ≤ maxDur) ∧
  l.sum + ((n : Int) - 1) * rest = actualTarget

theorem goodShape_attempt (md xd rest aT : Int) (n : Nat) (hn : 1 ≤ n)
    (ds : List Int) (hlen : ds.length = n - 1)
    (helem : ∀ x ∈ ds, md ≤ x ∧ x ≤ xd) :
    GoodShape md xd rest aT n (ds ++ [aT - ((n : Int) - 1) * rest - ds.sum]) := by
  refine ⟨?_, ?_, ?_⟩
  · simp only [List.length_append, List.length_singleton, hlen]
    omega
  · rw [List.dropLast_concat]; exact helem
  · simp only [List.sum_append, List.sum_singleton]
    ring

theorem attemptLoop_succ (md xd rest aT : Int) (n fuel : Nat) (r : Rng) (bd : Int)
    (best : List Int) :
    attemptLoop md xd rest aT n (fuel + 1) r bd best =
      match drawDurations md xd (n - 1) r with
      | none => none
      | some (ds, r1) =>
        let requiredLast := aT - ((n : Int) - 1) * rest - ds.sum
        let durations := ds ++ [requiredLast]
        if md ≤ requiredLast ∧ requiredLast ≤ xd then some durations
        else
          let diff := if requiredLast < md then md - requiredLast
                      else requiredLast - xd
          if diff < bd then
            attemptLoop md xd rest aT n fuel r1 diff durations
          else
            attemptLoop md xd rest aT n fuel r1 bd best := rfl

theorem attemptLoop_total (md xd rest aT : Int) (n : Nat) (hmm : md ≤ xd) :
    ∀ (fuel : Nat) (r : Rng) (bd : Int) (best : List Int),
      ∃ l, attemptLoop md xd rest aT n fuel r bd best = some l := by
  intro fuel
  induction fuel with
  | zero => exact fun r bd best => ⟨best, rfl⟩
  | succ f ih =>
    intro r bd best
    obtain ⟨ds, r1, hd⟩ := drawDurations_total md xd hmm (n - 1) r
    rw [attemptLoop_succ, hd]
    dsimp only
    split
    · exact ⟨_, rfl⟩
    · split <;> split <;> exact ih r1 _ _

theorem attemptLoop_shape (md xd rest aT : Int) (n : Nat) (hn : 1 ≤ n) :
    ∀ (fuel : Nat) (r : Rng) (bd : Int) (best l : List Int),
      (GoodShape md xd rest aT n best ∨ best = List.replicate n 0) →
      attemptLoop md xd rest aT n fuel r bd best = some l →
      GoodShape md xd rest aT n l ∨ l = List.replicate n 0 := by
  intro fuel
  induction fuel with
  | zero =>
    intro r bd best l hb h
    have h0 : attemptLoop md xd rest aT n 0 r bd best = some best := rfl
    rw [h0, Option.some.injEq] at h
    subst h
    exact hb
  | succ f ih =>
    intro r bd best l hb h
    rw [attemptLoop_succ] at h
    cases hd : drawDurations md xd (n - 1) r with
    | none => rw [hd] at h; exact absurd h (by simp)
    | some p =>
      obtain ⟨ds, r1⟩ := p
      rw [hd] at h
      dsimp only at h
      obtain ⟨hlen, helem, -, -⟩ := drawDurations_some md xd (n - 1) r ds r1 hd
      split at h
      · rw [Option.some.injEq] at h
        subst h
        exact Or.inl (goodShape_attempt md xd rest aT n hn ds hlen helem)
      · split at h <;> split at h <;>
          first
          | exact ih r1 _ _ l
              (Or.inl (goodShape_attempt md xd rest aT n hn ds hlen helem)) h
          | exact ih r1 _ _ l hb h

theorem attemptLoop_good (md xd rest aT : Int) (n : Nat) (hn : 1 ≤ n) :
    ∀ (fuel : Nat) (r : Rng) (bd : Int) (best l : List Int),
      GoodShape md xd rest aT n best →
      attemptLoop md xd rest aT n fuel r bd best = some l →
      GoodShape md xd rest aT n l := by
  intro fuel
  induction fuel with
  | zero =>
    intro r bd best l hb h
    have h0 : attemptLoop md xd rest aT n 0 r bd best = some best := rfl
    rw [h0, Option.some.injEq] at h
    subst h
    exact hb
  | succ f ih =>
    intro r bd best l hb h
    rw [attemptLoop_succ] at h
    cases hd : drawDurations md xd (n - 1) r with
    | none => rw [hd] at h; exact absurd h (by simp)
    | some p =>
      obtain ⟨ds, r1⟩ := p
      rw [hd] at h
      dsimp only at h
      obtain ⟨hlen, helem, -, -⟩ := drawDurations_some md xd (n - 1) r ds r1 hd
      split at h
      · rw [Option.some.injEq] at h
        subst h
        exact goodShape_attempt md xd rest aT n hn ds hlen helem
      · split at h <;> split at h <;>
          first
          | exact ih r1 _ _ l (goodShape_attempt md xd rest aT n hn ds hlen helem) h
          | exact ih r1 _ _ l hb h

theorem attemptLoop_first (md xd rest aT : Int) (n : Nat) (hn : 1 ≤ n) (bd : Int)
    (hdiff : ∀ s : Int, ((n : Int) - 1) * md ≤ s → s ≤ ((n : Int) - 1) * xd →
      ¬(md ≤ aT - ((n : Int) - 1) * rest - s ∧ aT - ((n : Int) - 1) * rest - s ≤ xd) →
      (if aT - ((n : Int) - 1) * rest - s < md then md - (aT - ((n : Int) - 1) * rest - s)
       else aT - ((n : Int) - 1) * rest - s - xd) < bd) :
    ∀ (fuel : Nat) (r : Rng) (best l : List Int),
      attemptLoop md xd rest aT n (fuel + 1) r bd best = some l →
      GoodShape md xd rest aT n l := by
  intro fuel r best l h
  rw [attemptLoop_succ] at h
  cases hd : drawDurations md xd (n - 1) r with
  | none => rw [hd] at h; exact absurd h (by simp)
  | some p =>
    obtain ⟨ds, r1⟩ := p
    rw [hd] at h
    dsimp only at h
    obtain ⟨hlen, helem, hlo, hhi⟩ := drawDurations_some md xd (n - 1) r ds r1 hd
    have hcast : ((n - 1 : Nat) : Int) = (n : Int) - 1 := by omega
    rw [hcast] at hlo hhi
    split at h
    · rw [Option.some.injEq] at h
      subst h
      exact goodShape_attempt md xd rest aT n hn ds hlen helem
    case isFalse hperf =>
      rw [if_pos (hdiff ds.sum hlo hhi hperf)] at h
      exact attemptLoop_good md xd rest aT n hn fuel r1 _ _ l
        (goodShape_attempt md xd rest aT n hn ds hlen helem) h

/-! ### The candidate list and the chosen count -/

theorem candidateCounts_mem {estN md xd rest aT n : Int}
    (h : n ∈ candidateCounts estN md xd rest aT) :
    0 < n ∧ n * md + (n - 1) * rest ≤ aT ∧ aT ≤ n * xd + (n - 1) * rest := by
  unfold candidateCounts at h
  rw [List.mem_filterMap] at h
  obtain ⟨k, -, hk⟩ := h
  dsimp only at hk
  split at hk
  · exact absurd hk (by simp)
  case isFalse h1 =>
    split at hk
    case isTrue h2 =>
      rw [Option.some.injEq] at hk
      subst hk
      exact ⟨by omega, h2.1, h2.2⟩
    · exact absurd hk (by simp)

theorem getD_mem_or_eq (l : List Int) (i : Nat) (d : Int) :
    l.getD i d ∈ l ∨ l.getD i d = d := by
  induction l generalizing i with
  | nil => simp [List.getD]
  | cons x xs ih =>
    cases i with
    | zero => simp [List.getD]
    | succ j =>
      rcases ih j with h | h
      · exact Or.inl (List.mem_cons_of_mem x h)
      · exact Or.inr h

theorem getD_mem_of_lt (l : List Int) (i : Nat) (d : Int) (h : i < l.length) :
    l.getD i d ∈ l := by
  induction l generalizing i with
  | nil => simp at h
  | cons x xs ih =>
    cases i with
    | zero => simp [List.getD]
    | succ j => exact List.mem_cons_of_mem x (ih j (by simpa using h))

theorem planWithTarget_eq_some (cfg : Config) (aT : Int) (r : Rng) (l : List Int)
    (h : planWithTarget cfg aT r = some l) :
    ∃ (n : Int) (r1 : Rng), 0 < n ∧
      (n ∈ candidateCounts (Int.tdiv aT (cfg.MicroBaseS + cfg.MicroRestS))
             (cfg.MicroBaseS - cfg.MicroOffsetS) (cfg.MicroBaseS + cfg.MicroOffsetS)
             cfg.MicroRestS aT
       ∨ n = Int.tdiv aT (cfg.MicroBaseS + cfg.MicroRestS)) ∧
      attemptLoop (cfg.MicroBaseS - cfg.MicroOffsetS) (cfg.MicroBaseS + cfg.MicroOffsetS)
        cfg.MicroRestS aT n.toNat 100 r1 1000000 (List.replicate n.toNat 0) = some l := by
  unfold planWithTarget at h
  split at h
  · exact absurd h (by simp)
  case isFalse hz =>
    dsimp only at h
    set estN := Int.tdiv aT (cfg.MicroBaseS + cfg.MicroRestS) with hestN
    set C := candidateCounts estN (cfg.MicroBaseS - cfg.MicroOffsetS)
      (cfg.MicroBaseS + cfg.MicroOffsetS) cfg.MicroRestS aT with hC
    set L := if C.isEmpty then [estN] else C with hL
    cases hn : r.next (L.length : Int) with
    | none => rw [hn] at h; exact absurd h (by simp)
    | some p =>
      obtain ⟨i, r1⟩ := p
      rw [hn] at h
      dsimp only at h
      split at h
      · exact absurd h (by simp)
      case isFalse hpos =>
        set nv := L.getD i.toNat 0 with hnv
        refine ⟨nv, r1, by omega, ?_, h⟩
        rcases getD_mem_or_eq L i.toNat 0 with hm | hd0
        · rw [← hnv] at hm
          rw [hL] at hm
          by_cases he : C.isEmpty
          · rw [if_pos he] at hm
            right
            exact List.mem_singleton.mp hm
          · rw [if_neg he] at hm
            left
            exact hm
        · omega

theorem planMesoSchedule_eq (cfg : Config) (t : Int) (g : Nat → Nat) :
    planMesoSchedule cfg t ⟨g, 0⟩ =
      planWithTarget cfg (t + ((g 0 % 61 : Nat) : Int)) ⟨g, 1⟩ := rfl

/-- Every successfully returned plan has the length of the chosen count
and is either a recorded attempt (`GoodShape`) or the untouched
zero-initialized buffer (possible when no attempt beat the `1000000`
sentinel). -/
theorem plan_shape (cfg : Config) (t : Int) (g : Nat → Nat) (l : List Int)
    (h : planMesoSchedule cfg t ⟨g, 0⟩ = some l) :
    l ≠ [] ∧
    (GoodShape (cfg.MicroBaseS - cfg.MicroOffsetS) (cfg.MicroBaseS + cfg.MicroOffsetS)
       cfg.MicroRestS (t + ((g 0 % 61 : Nat) : Int)) l.length l
     ∨ l = List.replicate l.length 0) := by
  rw [planMesoSchedule_eq] at h
  obtain ⟨n, r1, hn, -, hrun⟩ := planWithTarget_eq_some _ _ _ _ h
  have hn1 : 1 ≤ n.toNat := by omega
  have hres := attemptLoop_shape _ _ _ _ n.toNat hn1 100 r1 1000000 _ l (Or.inr rfl) hrun
  have hlen : l.length = n.toNat := by
    rcases hres with hg | hrep
    · exact hg.1
    · rw [hrep]
      simp
  refine ⟨List.ne_nil_of_length_pos (by omega), ?_⟩
  rw [hlen]
  exact hres

/-! ### Concrete configurations and random streams used as test points -/

/-- The scenario-A configuration of the spec: base 25 s, offset 5 s, micro
rest 5 s, meso target 1 min, one meso group, no meso/macro rest. -/
def cfgA : Config := ⟨25, 5, 5, 1, 0, 1, 0⟩

/-- A valid configuration with a wide duration band: bounds
`[minDur, maxDur] = [1, 1999999]`, rest 0.  Used to exhibit runs in which
every attempt deviates by at least the 1000000 sentinel, so the returned
plan is the untouched zero buffer. -/
def cfgB : Config := ⟨1000000, 999999, 0, 0, 0, 1, 0⟩

/-- The all-zero random stream: zero jitter, first candidate count,
minimal draws. -/
def gZero : Nat → Nat := fun _ => 0

/-- Adversarial stream for the closest-miss path at target 300 s: zero
jitter, second candidate count (n = 10), every draw maximal (30 s). -/
def gC4 : Nat → Nat := fun i => if i = 0 then 0 else if i = 1 then 1 else 10

/-- Adversarial stream for scenario A: maximal jitter (60 s, so the
jittered target is 120 s), second candidate count (n = 5), every draw
maximal (30 s). -/
def gC5 : Nat → Nat := fun i => if i = 0 then 60 else if i = 1 then 1 else 10

/-! ### Claims C1-C4: planner bound, sum, totality, positivity -/

/-- Claim C1 (amended): whenever `planMesoSchedule` returns a plan, the
plan is non-empty and every duration except the last lies in
`[minDur, maxDur]` — or equals 0, which happens exactly when the returned
plan is the zero-initialized fallback buffer kept because no retry attempt
deviated by less than the 1000000 sentinel. -/
theorem planner_bound_amended (cfg : Config) (t : Int) (g : Nat → Nat) (l : List Int)
    (h : planMesoSchedule cfg t ⟨g, 0⟩ = some l) :
    l ≠ [] ∧ ∀ x ∈ l.dropLast,
      (cfg.MicroBaseS - cfg.MicroOffsetS ≤ x ∧ x ≤ cfg.MicroBaseS + cfg.MicroOffsetS) ∨
      x = 0 := by
  obtain ⟨hne, hsh⟩ := plan_shape cfg t g l h
  refine ⟨hne, ?_⟩
  intro x hx
  rcases hsh with hg | hrep
  · exact Or.inl (hg.2.1 x hx)
  · right
    have hxl : x ∈ l := (List.dropLast_sublist l).subset hx
    rw [hrep] at hxl
    exact (List.mem_replicate.mp hxl).2

/-- Claim C1 counterexample: with the valid configuration `cfgB` (bounds
`[1, 1999999]`, rest 0, so minDur ≤ maxDur), target 3999998 s and the
all-zero stream, the chosen count is 2 and every attempt deviates by
1999998 ≥ 1000000, so no best is ever recorded and the zero buffer
`[0, 0]` is returned: its first — non-last — element 0 violates the lower
bound `minDur = 1`. -/
theorem planner_bound_cex :
    planMesoSchedule cfgB 3999998 ⟨gZero, 0⟩ = some [0, 0] ∧
    (0 : Int) ∈ ([0, 0] : List Int).dropLast ∧
    ¬(cfgB.MicroBaseS - cfgB.MicroOffsetS ≤ (0 : Int)) := by decide

/-- Witness for C1: the run of `planMesoSchedule` on the scenario-A
configuration, target 60 s, all-zero stream, returns `[20, 35]`. -/
theorem planner_bound_amended_wit :
    ([20, 35] : List Int) ≠ [] ∧ ∀ x ∈ ([20, 35] : List Int).dropLast,
      (cfgA.MicroBaseS - cfgA.MicroOffsetS ≤ x ∧ x ≤ cfgA.MicroBaseS + cfgA.MicroOffsetS) ∨
      x = 0 :=
  planner_bound_amended cfgA 60 gZero [20, 35] (by decide)

/-- Claim C2 (amended): the aggregate of the returned durations plus
`(count-1)*rest` equals the jittered target `actualTarget` exactly —
unless the returned plan is the zero-initialized fallback buffer (all
elements 0), for which the aggregate can deviate without bound. -/
theorem planner_sum_amended (cfg : Config) (t : Int) (g : Nat → Nat) (l : List Int)
    (h : planMesoSchedule cfg t ⟨g, 0⟩ = some l) :
    l.sum + ((l.length : Int) - 1) * cfg.MicroRestS = t + ((g 0 % 61 : Nat) : Int) ∨
    ∀ x ∈ l, x = 0 := by
  obtain ⟨-, hsh⟩ := plan_shape cfg t g l h
  rcases hsh with hg | hrep
  · exact Or.inl hg.2.2
  · right
    intro x hx
    rw [hrep] at hx
    exact (List.mem_replicate.mp hx).2

/-- Claim C2 counterexample: same run as for C1 — the returned aggregate
is 0 although the jittered target is 3999998; the shortfall exceeds even
the code's own 1000000 sentinel, so no small bounded tolerance holds. -/
theorem planner_sum_cex :
    planMesoSchedule cfgB 3999998 ⟨gZero, 0⟩ = some [0, 0] ∧
    List.sum ([0, 0] : List Int) +
      ((List.length ([0, 0] : List Int) : Int) - 1) * cfgB.MicroRestS + 1000000 <
      3999998 + ((gZero 0 % 61 : Nat) : Int) := by decide

/-- Witness for C2: on the scenario-A run returning `[20, 35]` the sum
identity holds: 55 + 1*5 = 60 + 0. -/
theorem planner_sum_amended_wit :
    List.sum ([20, 35] : List Int) +
      ((List.length ([20, 35] : List Int) : Int) - 1) * cfgA.MicroRestS =
      60 + ((gZero 0 % 61 : Nat) : Int) ∨
    ∀ x ∈ ([20, 35] : List Int), x = 0 :=
  planner_sum_amended cfgA 60 gZero [20, 35] (by decide)

/-- Claim C3: the fallback count is in fact NOT clamped to ≥ 1.  With the
scenario-A configuration, target 0 s and zero jitter, `estN = 0`, no
candidate in 1..5 fits the target, the fallback keeps `n = estN = 0`, and
the source then evaluates `durations[n-1]` = `durations[-1]` — an
out-of-range indexing panic, modelled as `none`: the planner aborts
instead of returning a single minimal-duration interval. -/
theorem planner_panics_on_small_target :
    planMesoSchedule cfgA 0 ⟨gZero, 0⟩ = none := by decide

/-- Claim C4 (amended): every element except possibly the last of a
returned plan is strictly positive whenever the configured lower bound
`minDur` is ≥ 1 — unless the plan is the zero-initialized fallback buffer
(elements 0).  The final element can be zero or negative under the
closest-miss fallback. -/
theorem planner_positive_amended (cfg : Config) (t : Int) (g : Nat → Nat) (l : List Int)
    (hmin : 1 ≤ cfg.MicroBaseS - cfg.MicroOffsetS)
    (h : planMesoSchedule cfg t ⟨g, 0⟩ = some l) :
    ∀ x ∈ l.dropLast, 0 < x ∨ x = 0 := by
  obtain ⟨-, hsh⟩ := plan_shape cfg t g l h
  intro x hx
  rcases hsh with hg | hrep
  · have := hg.2.1 x hx
    left
    omega
  · right
    have hxl : x ∈ l := (List.dropLast_sublist l).subset hx
    rw [hrep] at hxl
    exact (List.mem_replicate.mp hxl).2

/-- Claim C4 counterexample: with the scenario-A configuration, target
300 s, zero jitter, chosen count 10 and every draw maximal (30 s), every
attempt computes a required last duration of -15 s; the recorded best is
returned, and its final element -15 is not a strictly positive
duration. -/
theorem planner_positive_cex :
    planMesoSchedule cfgA 300 ⟨gC4, 0⟩ =
      some [30, 30, 30, 30, 30, 30, 30, 30, 30, -15] ∧
    ¬(∀ x ∈ ([30, 30, 30, 30, 30, 30, 30, 30, 30, -15] : List Int), 0 < x) := by decide

/-- Witness for C4: the scenario-A run returning `[20, 35]` has its
non-last element 20 strictly positive. -/
theorem planner_positive_amended_wit : (0 : Int) < 20 ∨ (20 : Int) = 0 :=
  planner_positive_amended cfgA 60 gZero [20, 35] (by decide) (by decide) 20 (by decide)

theorem tdivNat (a b : Nat) : Int.tdiv (a : Int) (b : Int) = ((a / b : Nat) : Int) := rfl

theorem planWithTarget_run (cfg : Config) (aT : Int) (r : Rng)
    (hz : ¬(cfg.MicroBaseS + cfg.MicroRestS = 0))
    (hest : 0 < Int.tdiv aT (cfg.MicroBaseS + cfg.MicroRestS)) :
    ∃ (n : Int) (r1 : Rng), 0 < n ∧
      (n ∈ candidateCounts (Int.tdiv aT (cfg.MicroBaseS + cfg.MicroRestS))
             (cfg.MicroBaseS - cfg.MicroOffsetS) (cfg.MicroBaseS + cfg.MicroOffsetS)
             cfg.MicroRestS aT
       ∨ n = Int.tdiv aT (cfg.MicroBaseS + cfg.MicroRestS)) ∧
      planWithTarget cfg aT r =
        attemptLoop (cfg.MicroBaseS - cfg.MicroOffsetS) (cfg.MicroBaseS + cfg.MicroOffsetS)
          cfg.MicroRestS aT n.toNat 100 r1 1000000 (List.replicate n.toNat 0) := by
  unfold planWithTarget
  rw [if_neg hz]
  dsimp only
  set estN := Int.tdiv aT (cfg.MicroBaseS + cfg.MicroRestS) with hestN
  set C := candidateCounts estN (cfg.MicroBaseS - cfg.MicroOffsetS)
    (cfg.MicroBaseS + cfg.MicroOffsetS) cfg.MicroRestS aT with hC
  set L := if C.isEmpty then [estN] else C with hL
  have hLpos : 0 < L.length := by
    rw [hL]
    split
    · simp
    case isFalse he =>
      have : C ≠ [] := by
        intro hnil
        exact he (by rw [hnil]; rfl)
      exact List.length_pos.mpr this
  have hcast : (0 : Int) < (L.length : Int) := by exact_mod_cast hLpos
  rw [Rng.next_pos r _ hcast]
  dsimp only
  have hidx : (((r.stream r.idx % ((L.length : Int)).toNat : Nat)) : Int).toNat =
      r.stream r.idx % L.length := by norm_cast
  rw [hidx]
  set nv := L.getD (r.stream r.idx % L.length) 0 with hnv
  have hn_mem : nv ∈ L := by
    rw [hnv]
    exact getD_mem_of_lt _ _ _ (Nat.mod_lt _ hLpos)
  have hmem_or : nv ∈ C ∨ nv = estN := by
    rw [hL] at hn_mem
    by_cases he : C.isEmpty
    · rw [if_pos he] at hn_mem
      right
      exact List.mem_singleton.mp hn_mem
    · rw [if_neg he] at hn_mem
      left
      exact hn_mem
  have hn_pos : 0 < nv := by
    rcases hmem_or with hm | he
    · exact (candidateCounts_mem hm).1
    · rw [he]
      exact hest
  rw [if_neg (by omega : ¬ nv ≤ 0)]
  exact ⟨nv, ⟨r.stream, r.idx + 1⟩, hn_pos, hmem_or, rfl⟩

/-- Claim C5 (amended): with the scenario-A configuration (base 25, offset
5, rest 5) and a 60-second target, for every outcome of the random source
`planMesoSchedule` returns a plan of at least 2 and at most 5
micro-intervals; every interval except possibly the last lies in
`[20, 30]` seconds; the aggregate including the interior rests equals the
jittered target exactly, which lies in `[60, 120]` seconds.  (The original
bound of at most 3 intervals, the bound on the final interval, and the
`[60, 120]` range for the rest-free active time do not hold.) -/
theorem scenario_a_amended (g : Nat → Nat) :
    ∃ l : List Int, planMesoSchedule cfgA 60 ⟨g, 0⟩ = some l ∧
      2 ≤ l.length ∧ l.length ≤ 5 ∧
      (∀ x ∈ l.dropLast, 20 ≤ x ∧ x ≤ 30) ∧
      l.sum + ((l.length : Int) - 1) * 5 = 60 + ((g 0 % 61 : Nat) : Int) ∧
      60 ≤ 60 + ((g 0 % 61 : Nat) : Int) ∧ 60 + ((g 0 % 61 : Nat) : Int) ≤ 120 := by
  have hj : g 0 % 61 < 61 := Nat.mod_lt _ (by norm_num)
  set aT : Int := 60 + ((g 0 % 61 : Nat) : Int) with haT
  have haT1 : 60 ≤ aT := by omega
  have haT2 : aT ≤ 120 := by omega
  have hcastT : aT = ((60 + g 0 % 61 : Nat) : Int) := by
    rw [haT]
    push_cast
    ring
  have e30 : cfgA.MicroBaseS + cfgA.MicroRestS = 30 := by decide
  have e20 : cfgA.MicroBaseS - cfgA.MicroOffsetS = 20 := by decide
  have exd : cfgA.MicroBaseS + cfgA.MicroOffsetS = 30 := by decide
  have er : cfgA.MicroRestS = 5 := by decide
  have hestv : Int.tdiv aT (cfgA.MicroBaseS + cfgA.MicroRestS) =
      (((60 + g 0 % 61) / 30 : Nat) : Int) := by
    rw [e30, hcastT]
    exact tdivNat _ 30
  have hest : 0 < Int.tdiv aT (cfgA.MicroBaseS + cfgA.MicroRestS) := by
    rw [hestv]
    have : 2 ≤ (60 + g 0 % 61) / 30 := by omega
    omega
  obtain ⟨n, r1, hn, hmem, heq⟩ :=
    planWithTarget_run cfgA aT ⟨g, 1⟩ (by rw [e30]; norm_num) hest
  rw [e20, exd, er] at heq
  have hb : 2 ≤ n ∧ n ≤ 5 := by
    rcases hmem with hm | he
    · rw [e20, exd, er] at hm
      obtain ⟨hp, h1, h2⟩ := candidateCounts_mem hm
      constructor <;> omega
    · rw [he, hestv]
      have h1 : 2 ≤ (60 + g 0 % 61) / 30 := by omega
      have h2 : (60 + g 0 % 61) / 30 ≤ 4 := by omega
      constructor <;> omega
  have hnn : ((n.toNat : Nat) : Int) = n := Int.toNat_of_nonneg (le_of_lt hn)
  have hn1 : 1 ≤ n.toNat := by omega
  have hdiff : ∀ s : Int, ((n.toNat : Int) - 1) * 20 ≤ s → s ≤ ((n.toNat : Int) - 1) * 30 →
      ¬(20 ≤ aT - ((n.toNat : Int) - 1) * 5 - s ∧ aT - ((n.toNat : Int) - 1) * 5 - s ≤ 30) →
      (if aT - ((n.toNat : Int) - 1) * 5 - s < 20 then
        20 - (aT - ((n.toNat : Int) - 1) * 5 - s)
       else aT - ((n.toNat : Int) - 1) * 5 - s - 30) < 1000000 := by
    intro s h1 h2 h3
    rw [hnn] at h1 h2 ⊢
    split <;> omega
  obtain ⟨l, hl⟩ := attemptLoop_total 20 30 5 aT n.toNat (by norm_num) 100 r1 1000000
    (List.replicate n.toNat 0)
  have h100 : (100 : Nat) = 99 + 1 := by norm_num
  rw [h100] at hl
  have hg := attemptLoop_first 20 30 5 aT n.toNat hn1 1000000 hdiff 99 r1
    (List.replicate n.toNat 0) l hl
  obtain ⟨hglen, hgelem, hgsum⟩ := hg
  refine ⟨l, ?_, ?_, ?_, hgelem, ?_, haT1, haT2⟩
  · rw [planMesoSchedule_eq, heq, hl]
  · omega
  · omega
  · rw [hglen]
    exact hgsum

/-- Claim C5 counterexample: with the scenario-A configuration and target
60 s, the stream with jitter 60 (target 120 s), candidate pick `n = 5` and
every draw maximal (30 s) makes every attempt compute a required last
duration of -20 s; the returned plan `[30, 30, 30, 30, -20]` has 5 > 3
micro-intervals and an element outside `[20, 30]`. -/
theorem scenario_a_cex :
    planMesoSchedule cfgA 60 ⟨gC5, 0⟩ = some [30, 30, 30, 30, -20] ∧
    ¬(List.length ([30, 30, 30, 30, -20] : List Int) ≤ 3) ∧
    ¬(∀ x ∈ ([30, 30, 30, 30, -20] : List Int), 20 ≤ x ∧ x ≤ 30) := by decide

/-! ### Claim C6: the meso rest is skipped exactly after the last group -/

/-- Claim C6: in every macro cycle, group `i` (0-based, `i < MesoCount`)
runs with the last-group flag `i == MesoCount - 1`; after its
`clearMesoTask` the trace continues with the MesoComplete cue
(`info.mp3`), the meso-rest wait, and the MesoRestComplete cue
(`succeed.mp3`) exactly when `i` is not the last group, and with nothing
(proceeding directly to the macro-rest tail of `runMacroCycleTrace`) when
it is. -/
theorem meso_rest_only_between_groups (cfg : Config) (plans : Nat → List Int) (i : Nat)
    (hi : i < cfg.MesoCount) :
    (mesoGroupTraces cfg plans).getD i [] =
      [Event.setMeso (totalMesoDuration cfg.MicroRestS (plans i))] ++
      microTrace cfg.MicroRestS (plans i) ++ [Event.clearMeso] ++
      (if i = cfg.MesoCount - 1 then []
       else [Event.sound "Sounds/info.mp3", Event.setCurrent (60 * cfg.MesoRestM),
             Event.sleep (60 * cfg.MesoRestM), Event.sound "Sounds/succeed.mp3"]) ∧
    runMacroCycleTrace cfg plans =
      (mesoGroupTraces cfg plans).flatten ++
      [Event.sound "Sounds/info.mp3", Event.clearMeso,
       Event.setCurrent (60 * cfg.MacroRestM), Event.sleep (60 * cfg.MacroRestM),
       Event.sound "Sounds/succeed.mp3"] := by
  constructor
  · rw [mesoGroupTraces]
    have hg : ((List.range cfg.MesoCount).map
        (fun k => runMesoCycleTrace cfg (plans k) (k == cfg.MesoCount - 1))).getD i [] =
        runMesoCycleTrace cfg (plans i) (i == cfg.MesoCount - 1) := by
      simp [List.getD, List.getElem?_map, List.getElem?_range hi]
    rw [hg, runMesoCycleTrace]
    by_cases hlast : i = cfg.MesoCount - 1
    · rw [if_pos hlast]
      have : (i == cfg.MesoCount - 1) = true := beq_iff_eq.mpr hlast
      rw [this]
      simp
    · rw [if_neg hlast]
      have : (i == cfg.MesoCount - 1) = false := beq_eq_false_iff_ne.mpr hlast
      rw [this]
      simp [waitTrace]
  · rw [runMacroCycleTrace, waitTrace]
    simp

/-- A driver configuration for the C6 witness: three meso groups. -/
def cfgD : Config := ⟨25, 5, 5, 1, 10, 3, 20⟩

/-- The plans used in the C6 witness: one 25-second micro-interval per
group. -/
def plansD : Nat → List Int := fun _ => [25]

/-- Witness for C6, applied at groups 0 (not last: the meso-rest cues
follow) and 2 (last of the 3: nothing follows the `clearMeso`). -/
theorem meso_rest_only_between_groups_wit :
    ((mesoGroupTraces cfgD plansD).getD 0 [] =
      [Event.setMeso (totalMesoDuration cfgD.MicroRestS (plansD 0))] ++
      microTrace cfgD.MicroRestS (plansD 0) ++ [Event.clearMeso] ++
      (if 0 = cfgD.MesoCount - 1 then []
       else [Event.sound "Sounds/info.mp3", Event.setCurrent (60 * cfgD.MesoRestM),
             Event.sleep (60 * cfgD.MesoRestM), Event.sound "Sounds/succeed.mp3"]) ∧
     runMacroCycleTrace cfgD plansD =
      (mesoGroupTraces cfgD plansD).flatten ++
      [Event.sound "Sounds/info.mp3", Event.clearMeso,
       Event.setCurrent (60 * cfgD.MacroRestM), Event.sleep (60 * cfgD.MacroRestM),
       Event.sound "Sounds/succeed.mp3"]) ∧
    ((mesoGroupTraces cfgD plansD).getD 2 [] =
      [Event.setMeso (totalMesoDuration cfgD.MicroRestS (plansD 2))] ++
      microTrace cfgD.MicroRestS (plansD 2) ++ [Event.clearMeso] ++
      (if 2 = cfgD.MesoCount - 1 then []
       else [Event.sound "Sounds/info.mp3", Event.setCurrent (60 * cfgD.MesoRestM),
             Event.sleep (60 * cfgD.MesoRestM), Event.sound "Sounds/succeed.mp3"])) :=
  ⟨meso_rest_only_between_groups cfgD plansD 0 (by decide),
   (meso_rest_only_between_groups cfgD plansD 2 (by decide)).1⟩

/-! ### Claim C7: a panic ends the timer loop instead of restarting it -/

/-- Claim C7 counterexample: a panic in macro-cycle iteration 0 (and in no
later iteration) stops `startTimerLoop` after that single iteration: with
budget for 3 iterations, only iteration 0 runs and the loop is no longer
alive (`false`); no fresh macro cycle is started, contrary to the claimed
restart behaviour. -/
theorem timer_loop_cex :
    startTimerLoopModel (fun i => decide (i = 0)) 3 0 = (1, false) := by decide

/-- Claim C7 (amended): a panic in one iteration of the outer loop is
caught by the function-scoped recover (so the process survives and the
fault is logged), but `startTimerLoop` then returns: the timer loop
terminates right after the faulty iteration, regardless of the remaining
budget, and no fresh macro cycle begins. -/
theorem timer_loop_stops_after_fault (p : Nat → Bool) (fuel i : Nat) (h : p i = true) :
    startTimerLoopModel p (fuel + 1) i = (i + 1, false) := by
  rw [startTimerLoopModel, if_pos h]

/-- Witness for C7: a fault in iteration 0 with budget 5 ends the loop at
`(1, false)`. -/
theorem timer_loop_stops_after_fault_wit :
    startTimerLoopModel (fun _ => true) (4 + 1) 0 = (0 + 1, false) :=
  timer_loop_stops_after_fault (fun _ => true) 4 0 rfl

/-! ### Claims C8-C10: the snapshot reader and the state mutators -/

/-- Claim C8 counterexample: the reader clamps only from above.  For the
state with `CurrentDuration = -1` (reachable: the planner's closest-miss
fallback can publish a negative duration, see the C4 counterexample) and
`now = CurrentStartTime`, the raw elapsed 0 exceeds the total -1, so the
reported elapsed is -1 — not in `[0, total]` (which is empty): the claimed
containment fails for this state. -/
theorem status_clamped_cex :
    ¬(0 ≤ (statusHandler 0 ⟨0, -1, 0, -1, false⟩).current_elapsed) := by decide

/-- Claim C8 (amended): for every state with nonnegative totals and every
observation instant not before the starts, both reported elapsed values
lie in `[0, total]` for their respective totals, and whenever the raw
elapsed exceeds the total the reported elapsed equals the total
exactly. -/
theorem status_clamped (now : Int) (s : GlobalState)
    (h1 : s.CurrentStartTime ≤ now) (h2 : s.MesoStartTime ≤ now)
    (h3 : 0 ≤ s.CurrentDuration) (h4 : 0 ≤ s.MesoDuration) :
    (0 ≤ (statusHandler now s).current_elapsed ∧
     (statusHandler now s).current_elapsed ≤ (statusHandler now s).current_total) ∧
    (0 ≤ (statusHandler now s).meso_elapsed ∧
     (statusHandler now s).meso_elapsed ≤ (statusHandler now s).meso_total) ∧
    (now - s.CurrentStartTime > s.CurrentDuration →
      (statusHandler now s).current_elapsed = s.CurrentDuration) ∧
    (now - s.MesoStartTime > s.MesoDuration →
      (statusHandler now s).meso_elapsed = s.MesoDuration) := by
  simp only [statusHandler, clampedElapsed]
  refine ⟨⟨?_, ?_⟩, ⟨?_, ?_⟩, ?_, ?_⟩ <;> (split <;> omega)

/-- Witness for C8: state started at 0 with totals 3 and 10, observed at
instant 5: the active-interval elapsed is clamped to 3, the meso elapsed
is 5. -/
theorem status_clamped_wit :
    (0 ≤ (statusHandler 5 ⟨0, 3, 0, 10, true⟩).current_elapsed ∧
     (statusHandler 5 ⟨0, 3, 0, 10, true⟩).current_elapsed ≤
       (statusHandler 5 ⟨0, 3, 0, 10, true⟩).current_total) ∧
    (0 ≤ (statusHandler 5 ⟨0, 3, 0, 10, true⟩).meso_elapsed ∧
     (statusHandler 5 ⟨0, 3, 0, 10, true⟩).meso_elapsed ≤
       (statusHandler 5 ⟨0, 3, 0, 10, true⟩).meso_total) ∧
    ((5 : Int) - 0 > 3 → (statusHandler 5 ⟨0, 3, 0, 10, true⟩).current_elapsed = 3) ∧
    ((5 : Int) - 0 > 10 → (statusHandler 5 ⟨0, 3, 0, 10, true⟩).meso_elapsed = 10) :=
  status_clamped 5 ⟨0, 3, 0, 10, true⟩ (by decide) (by decide) (by decide) (by decide)

/-- Claim C9: after `setCurrentTask` publishes an active interval of
duration `T` at instant `now0`, and with no further writes, every snapshot
reports `current_total = T`, and the reported elapsed is monotonically
non-decreasing in the observation instant until the next publish. -/
theorem snapshot_consistency (s : GlobalState) (now0 T t1 t2 : Int) (h : t1 ≤ t2) :
    (statusHandler t1 (setCurrentTask now0 T s)).current_total = T ∧
    (statusHandler t2 (setCurrentTask now0 T s)).current_total = T ∧
    (statusHandler t1 (setCurrentTask now0 T s)).current_elapsed ≤
      (statusHandler t2 (setCurrentTask now0 T s)).current_elapsed := by
  refine ⟨rfl, rfl, ?_⟩
  simp only [statusHandler, setCurrentTask, clampedElapsed]
  split <;> split <;> omega

/-- Witness for C9: publish duration 10 at instant 0, observe at 3 and
then at 7. -/
theorem snapshot_consistency_wit :
    (statusHandler 3 (setCurrentTask 0 10 ⟨0, 0, 0, 0, false⟩)).current_total = 10 ∧
    (statusHandler 7 (setCurrentTask 0 10 ⟨0, 0, 0, 0, false⟩)).current_total = 10 ∧
    (statusHandler 3 (setCurrentTask 0 10 ⟨0, 0, 0, 0, false⟩)).current_elapsed ≤
      (statusHandler 7 (setCurrentTask 0 10 ⟨0, 0, 0, 0, false⟩)).current_elapsed :=
  snapshot_consistency ⟨0, 0, 0, 0, false⟩ 0 10 3 7 (by decide)

/-- Claim C10: each mutator touches only its designated fields:
`setCurrentTask` leaves the meso fields and flag unchanged, `setMesoTask`
leaves the active-interval fields unchanged, `clearMesoTask` changes only
the flag — and consequently a snapshot taken after `clearMesoTask`
reports `in_meso = false` together with the previous group's (stale) meso
start and total, the flag alone distinguishing whether they are
meaningful. -/
theorem mutator_frames (s : GlobalState) (now d : Int) :
    ((setCurrentTask now d s).MesoStartTime = s.MesoStartTime ∧
     (setCurrentTask now d s).MesoDuration = s.MesoDuration ∧
     (setCurrentTask now d s).InMeso = s.InMeso) ∧
    ((setMesoTask now d s).CurrentStartTime = s.CurrentStartTime ∧
     (setMesoTask now d s).CurrentDuration = s.CurrentDuration) ∧
    ((clearMesoTask s).CurrentStartTime = s.CurrentStartTime ∧
     (clearMesoTask s).CurrentDuration = s.CurrentDuration ∧
     (clearMesoTask s).MesoStartTime = s.MesoStartTime ∧
     (clearMesoTask s).MesoDuration = s.MesoDuration) ∧
    ((statusHandler now (clearMesoTask s)).in_meso = false ∧
     (statusHandler now (clearMesoTask s)).meso_total = s.MesoDuration ∧
     (statusHandler now (clearMesoTask s)).meso_elapsed =
       clampedElapsed now s.MesoStartTime s.MesoDuration) :=
  ⟨⟨rfl, rfl, rfl⟩, ⟨rfl, rfl⟩, ⟨rfl, rfl, rfl, rfl⟩, ⟨rfl, rfl, rfl⟩⟩
